import Mathlib

/-
Verification development for the preCICE mesh query interface
(src/precice/MeshHandle.hpp) and the Python action (src/action/PythonAction.hpp).
Only the headers of the repository are available; every function body lives in
the corresponding .cpp translation units, which are absent.  The behaviour is
therefore modelled from the specification (spec.md), faithful to its words, on
top of the class shapes that the headers do provide.
-/

set_option autoImplicit false

namespace Precice

/-- Modelled from the spec: a Vertex is an integer identifier plus a
fixed-dimension coordinate vector (`mesh::Vertex`, not under src/).  The double
coordinates are modelled by integers: no claim performs arithmetic on them,
they are only stored and read back. -/
structure Vertex where
  id : Int
  coords : List Int
deriving DecidableEq

/-- Modelled from the spec: an Edge is an ordered pair of vertices
(`mesh::Edge`, not under src/); the implementation resolves the two corner
vertices, giving per-corner id and coordinate access. -/
structure Edge where
  v0 : Vertex
  v1 : Vertex
deriving DecidableEq

/-- Modelled from the spec: a Triangle is an ordered triple of vertices
(`mesh::Triangle`, not under src/). -/
structure Triangle where
  v0 : Vertex
  v1 : Vertex
  v2 : Vertex
deriving DecidableEq

/-- Modelled from the spec: a Group is a named, possibly filtered subset of a
mesh's vertices, edges and triangles (`mesh::Group`, not under src/).  The
three element sequences are what the query interface iterates over. -/
structure Group where
  vertices : List Vertex
  edges : List Edge
  triangles : List Triangle
deriving DecidableEq

/-- Modelled from the spec: the opaque heap-allocated iterator implementation
object (`impl::VertexIteratorImplementation` and friends, declared in the
header, defined in the absent MeshHandle.cpp).  It records the Group's element
sequence and the current logical position. -/
structure IterImpl (α : Type) where
  content : List α
  index : Nat
deriving DecidableEq

/-- Heap of iterator implementation objects; an address is a position in the
list.  This models the `new`-allocated pImpl cells owned by the iterators. -/
abbrev IterHeap (α : Type) := List (IterImpl α)

/-- An iterator object of one element kind: it owns a pointer to its
implementation cell; a null pointer models the default-constructed (singular)
iterator. -/
structure Iter (α : Type) where
  ptr : Option Nat
deriving DecidableEq

/-- Source-shaped aliases: the header declares three separate iterator classes
of identical shape. -/
abbrev VertexIterator := Iter Vertex

abbrev EdgeIterator := Iter Edge

abbrev TriangleIterator := Iter Triangle

abbrev VertexIteratorImplementation := IterImpl Vertex

abbrev EdgeIteratorImplementation := IterImpl Edge

abbrev TriangleIteratorImplementation := IterImpl Triangle

/-- Heap lookup at an address. -/
def heapGet {α : Type} : IterHeap α → Nat → Option (IterImpl α)
  | [], _ => none
  | c :: _, 0 => some c
  | _ :: rest, p + 1 => heapGet rest p

/-- Heap update at an address (no-op outside the allocated range). -/
def heapSet {α : Type} : IterHeap α → Nat → IterImpl α → IterHeap α
  | [], _, _ => []
  | _ :: rest, 0, impl => impl :: rest
  | c :: rest, p + 1, impl => c :: heapSet rest p impl

/-- List element at an index (the element the iterator currently points at). -/
def elemAt {α : Type} : List α → Nat → Option α
  | [], _ => none
  | x :: _, 0 => some x
  | _ :: rest, n + 1 => elemAt rest n

/-- Allocate a fresh implementation cell and return the iterator owning it. -/
def allocImpl {α : Type} (h : IterHeap α) (impl : IterImpl α) :
    IterHeap α × Iter α :=
  (h ++ [impl], ⟨some h.length⟩)

/-- Dereference an iterator's pImpl pointer. -/
def getImpl {α : Type} (h : IterHeap α) (it : Iter α) : Option (IterImpl α) :=
  match it.ptr with
  | none => none
  | some p => heapGet h p

/-- Modelled from the spec: the default constructor yields a singular iterator
with a null implementation pointer (MeshHandle.cpp is absent). -/
def mkIterDefault {α : Type} : Iter α := ⟨none⟩

/-- Modelled from the spec: the `(const Group&, bool begin)` constructor
allocates an implementation positioned at the first element for `begin = true`
and one past the last element for `begin = false` (MeshHandle.cpp is
absent). -/
def mkIter {α : Type} (h : IterHeap α) (content : List α) (isBegin : Bool) :
    IterHeap α × Iter α :=
  allocImpl h ⟨content, if isBegin then 0 else content.length⟩

/-- Modelled from the spec: the copy constructor deep-copies the
implementation object into a fresh heap cell, so copies are independent
cursors; copying a singular iterator yields a singular iterator
(MeshHandle.cpp is absent). -/
def copyIter {α : Type} (h : IterHeap α) (it : Iter α) : IterHeap α × Iter α :=
  match getImpl h it with
  | some impl => allocImpl h impl
  | none => (h, ⟨none⟩)

/-- Modelled from the spec: prefix increment advances the iterator's own
implementation cell to the next logical position; it mutates only that cell
(MeshHandle.cpp is absent). -/
def incIter {α : Type} (h : IterHeap α) (it : Iter α) : IterHeap α :=
  match it.ptr with
  | none => h
  | some p =>
    match heapGet h p with
    | none => h
    | some impl => heapSet h p ⟨impl.content, impl.index + 1⟩

/-- Modelled from the spec: `operator==` compares logical position — two
singular iterators are equal, a singular and a non-singular iterator are not,
and two non-singular iterators are equal exactly when their implementations
agree on the element sequence and the position (MeshHandle.cpp is absent). -/
def iterEq {α : Type} [DecidableEq α] (h : IterHeap α) (a b : Iter α) : Bool :=
  match a.ptr, b.ptr with
  | none, none => true
  | some p, some q =>
    match heapGet h p, heapGet h q with
    | some ia, some ib =>
      decide (ia.content = ib.content) && decide (ia.index = ib.index)
    | _, _ => false
  | _, _ => false

/-- Modelled from the spec: `operator*` returns the iterator by value (the
headers declare `const VertexIterator operator*() const`), i.e. a deep copy of
the cursor — a value-type snapshot, not a reference into internal storage. -/
def derefIter {α : Type} (h : IterHeap α) (it : Iter α) : IterHeap α × Iter α :=
  copyIter h it

/-- Count the increments needed to walk `it` forward until it equals `stop`,
bounded by `fuel`; `some k` means equality was reached after exactly `k`
increments. -/
def iterCountSteps {α : Type} [DecidableEq α] :
    Nat → IterHeap α → Iter α → Iter α → Option Nat
  | 0, h, it, stop => if iterEq h it stop then some 0 else none
  | fuel + 1, h, it, stop =>
    if iterEq h it stop then some 0
    else (iterCountSteps fuel (incIter h it) it stop).map (· + 1)

/-- Modelled from the spec: `VertexIterator::vertexID()` returns the id of the
vertex at the current position (MeshHandle.cpp is absent). -/
def VertexIterator.vertexID (h : IterHeap Vertex) (it : Iter Vertex) :
    Option Int :=
  (getImpl h it).bind fun impl =>
    (elemAt impl.content impl.index).map Vertex.id

/-- Modelled from the spec: `VertexIterator::vertexCoords()` exposes the
coordinates of the vertex at the current position (the C++ returns a pointer
into coordinate storage, valid only until the next relocating call; the model
returns the pointed-at coordinate vector). -/
def VertexIterator.vertexCoords (h : IterHeap Vertex) (it : Iter Vertex) :
    Option (List Int) :=
  (getImpl h it).bind fun impl =>
    (elemAt impl.content impl.index).map Vertex.coords

/-- Modelled from the spec: `EdgeIterator::vertexID(int)` returns the id of
corner `i` of the edge at the current position, for `i` in `0..1`
(MeshHandle.cpp is absent). -/
def EdgeIterator.vertexID (h : IterHeap Edge) (it : Iter Edge) (i : Nat) :
    Option Int :=
  (getImpl h it).bind fun impl =>
    (elemAt impl.content impl.index).bind fun e =>
      match i with
      | 0 => some e.v0.id
      | 1 => some e.v1.id
      | _ => none

/-- Modelled from the spec: `EdgeIterator::vertexCoords(int)` returns the
coordinates of corner `i` of the edge at the current position. -/
def EdgeIterator.vertexCoords (h : IterHeap Edge) (it : Iter Edge) (i : Nat) :
    Option (List Int) :=
  (getImpl h it).bind fun impl =>
    (elemAt impl.content impl.index).bind fun e =>
      match i with
      | 0 => some e.v0.coords
      | 1 => some e.v1.coords
      | _ => none

/-- Modelled from the spec: `TriangleIterator::vertexID(int)` returns the id
of corner `i` of the triangle at the current position, for `i` in `0..2`. -/
def TriangleIterator.vertexID (h : IterHeap Triangle) (it : Iter Triangle)
    (i : Nat) : Option Int :=
  (getImpl h it).bind fun impl =>
    (elemAt impl.content impl.index).bind fun t =>
      match i with
      | 0 => some t.v0.id
      | 1 => some t.v1.id
      | 2 => some t.v2.id
      | _ => none

/-- Modelled from the spec: `TriangleIterator::vertexCoords(int)` returns the
coordinates of corner `i` of the triangle at the current position. -/
def TriangleIterator.vertexCoords (h : IterHeap Triangle) (it : Iter Triangle)
    (i : Nat) : Option (List Int) :=
  (getImpl h it).bind fun impl =>
    (elemAt impl.content impl.index).bind fun t =>
      match i with
      | 0 => some t.v0.coords
      | 1 => some t.v1.coords
      | 2 => some t.v2.coords
      | _ => none

/-- VertexHandle stores only the Group reference (header field `_content`). -/
structure VertexHandle where
  _content : Group
deriving DecidableEq

/-- EdgeHandle stores only the Group reference (header field `_content`). -/
structure EdgeHandle where
  _content : Group
deriving DecidableEq

/-- TriangleHandle stores only the Group reference (header field
`_content`). -/
structure TriangleHandle where
  _content : Group
deriving DecidableEq

/-- Modelled from the spec: `VertexHandle::begin()` constructs an iterator at
the first vertex of the Group (MeshHandle.cpp is absent). -/
def VertexHandle.beginIter (hl : VertexHandle) (h : IterHeap Vertex) :
    IterHeap Vertex × Iter Vertex :=
  mkIter h hl._content.vertices true

/-- Modelled from the spec: `VertexHandle::end()` constructs an iterator one
past the last vertex of the Group (MeshHandle.cpp is absent). -/
def VertexHandle.endIter (hl : VertexHandle) (h : IterHeap Vertex) :
    IterHeap Vertex × Iter Vertex :=
  mkIter h hl._content.vertices false

/-- Modelled from the spec: `VertexHandle::size()` returns the number of
vertices in the Group, without mutating it (MeshHandle.cpp is absent). -/
def VertexHandle.size (hl : VertexHandle) : Nat :=
  hl._content.vertices.length

/-- Walk from `begin()` to `end()` counting the increments, exactly as the
spec's exhaustion test does, granting the loop `size()` increments of fuel. -/
def VertexHandle.countSteps (hl : VertexHandle) : Option Nat :=
  let p := hl.beginIter []
  let q := hl.endIter p.1
  iterCountSteps hl.size q.1 p.2 q.2

/-- Modelled from the spec: `EdgeHandle::begin()`. -/
def EdgeHandle.beginIter (hl : EdgeHandle) (h : IterHeap Edge) :
    IterHeap Edge × Iter Edge :=
  mkIter h hl._content.edges true

/-- Modelled from the spec: `EdgeHandle::end()`. -/
def EdgeHandle.endIter (hl : EdgeHandle) (h : IterHeap Edge) :
    IterHeap Edge × Iter Edge :=
  mkIter h hl._content.edges false

/-- Modelled from the spec: `EdgeHandle::size()`. -/
def EdgeHandle.size (hl : EdgeHandle) : Nat :=
  hl._content.edges.length

/-- Walk from `begin()` to `end()` counting the increments (edges). -/
def EdgeHandle.countSteps (hl : EdgeHandle) : Option Nat :=
  let p := hl.beginIter []
  let q := hl.endIter p.1
  iterCountSteps hl.size q.1 p.2 q.2

/-- Modelled from the spec: `TriangleHandle::begin()`. -/
def TriangleHandle.beginIter (hl : TriangleHandle) (h : IterHeap Triangle) :
    IterHeap Triangle × Iter Triangle :=
  mkIter h hl._content.triangles true

/-- Modelled from the spec: `TriangleHandle::end()`. -/
def TriangleHandle.endIter (hl : TriangleHandle) (h : IterHeap Triangle) :
    IterHeap Triangle × Iter Triangle :=
  mkIter h hl._content.triangles false

/-- Modelled from the spec: `TriangleHandle::size()`. -/
def TriangleHandle.size (hl : TriangleHandle) : Nat :=
  hl._content.triangles.length

/-- Walk from `begin()` to `end()` counting the increments (triangles). -/
def TriangleHandle.countSteps (hl : TriangleHandle) : Option Nat :=
  let p := hl.beginIter []
  let q := hl.endIter p.1
  iterCountSteps hl.size q.1 p.2 q.2

/-- MeshHandle stores the three sub-handles (header fields `_vertexHandle`,
`_edgeHandle`, `_triangleHandle`). -/
structure MeshHandle where
  _vertexHandle : VertexHandle
  _edgeHandle : EdgeHandle
  _triangleHandle : TriangleHandle
deriving DecidableEq

/-- Modelled from the spec: the MeshHandle constructor builds all three
sub-handles over the same Group (MeshHandle.cpp is absent). -/
def MeshHandle.ofGroup (content : Group) : MeshHandle :=
  ⟨⟨content⟩, ⟨content⟩, ⟨content⟩⟩

/-- MeshHandle::vertices() returns the stored vertex handle. -/
def MeshHandle.vertices (m : MeshHandle) : VertexHandle :=
  m._vertexHandle

/-- MeshHandle::edges() returns the stored edge handle. -/
def MeshHandle.edges (m : MeshHandle) : EdgeHandle :=
  m._edgeHandle

/-- MeshHandle::triangles() returns the stored triangle handle. -/
def MeshHandle.triangles (m : MeshHandle) : TriangleHandle :=
  m._triangleHandle

/-- Modelled from the spec: the Timing enumeration is owned by the excluded
coupling-scheme collaborator (action/Action.hpp is not under src/); the spec
names these example occurrence points, and the Action framework only stores
and compares one such value. -/
inductive Timing where
  | startOfTimestep
  | beforeDataExchange
  | afterDataExchange
  | endOfCouplingIteration
  | endOfTimestep
deriving DecidableEq

/-- Modelled from the spec: a loaded Python module with its three optional
entry points; each flag records whether the hook of that name is defined by
the module (PythonAction.cpp is absent, so the hooks are modelled by their
presence, which is all the claims observe). -/
structure PyHooks where
  hasPerformAction : Bool
  hasVertexCallback : Bool
  hasPostAction : Bool
deriving DecidableEq

/-- Modelled from the spec: the fatal configuration errors the Python action
can raise at first use, each carrying the offending module or hook name. -/
inductive PyError where
  | moduleNotFound (moduleName : String)
  | missingHook (moduleName hookName : String)
deriving DecidableEq

/-- Modelled from the spec: the process-wide embedded interpreter state — a
shared reference count of live initialized PythonAction instances, whether the
interpreter is currently up, and how many times global startup has run
(PythonAction.cpp, which holds this static state, is absent). -/
structure PyRuntime where
  refCount : Nat
  up : Bool
  startCount : Nat
deriving DecidableEq

/-- PythonAction instance state, mirroring the header's fields: the Timing and
mesh stored by the Action base class, the module path and name, the target and
source Data (modelled by their identifiers, through which the header's PtrData
members are resolved), the `_isInitialized` flag, and the loaded module with
its resolved hook objects (`_module`, `_performAction`, `_vertexCallback`,
`_postAction` — all null until first use, modelled as one `Option`). -/
structure PythonAction where
  timing : Timing
  _mesh : Group
  _modulePath : String
  _moduleName : String
  _targetData : Int
  _sourceData : Int
  _isInitialized : Bool
  _module : Option PyHooks
deriving DecidableEq

/-- Modelled from the spec: the PythonAction constructor only records the
module's location and name, the timing, the mesh and the data identifiers; the
interpreter is not started and the module is not imported here
(PythonAction.cpp is absent). -/
def mkPythonAction (timing : Timing) (modulePath moduleName : String)
    (mesh : Group) (targetDataID sourceDataID : Int) : PythonAction :=
  ⟨timing, mesh, modulePath, moduleName, targetDataID, sourceDataID,
    false, none⟩

/-- Modelled from the spec: acquire one shared reference on the process-wide
interpreter; the first acquirer in a process performs global startup. -/
def acquirePy (g : PyRuntime) : PyRuntime :=
  if g.refCount = 0 then ⟨1, true, g.startCount + 1⟩
  else ⟨g.refCount + 1, g.up, g.startCount⟩

/-- Modelled from the spec: release one shared reference; the last release
performs global teardown, and releasing with no live reference is the
resource-lifecycle error the counting discipline prevents (`none`). -/
def releasePy (g : PyRuntime) : Option PyRuntime :=
  match g.refCount with
  | 0 => none
  | 1 => some ⟨0, false, g.startCount⟩
  | n + 2 => some ⟨n + 1, g.up, g.startCount⟩

/-- Environment of importable Python modules, keyed by module name. -/
def envLookup : List (String × PyHooks) → String → Option PyHooks
  | [], _ => none
  | (k, v) :: rest, n => if k = n then some v else envLookup rest n

/-- Modelled from the spec: `PythonAction::initialize()` — run on the first
`performAction` call — acquires the shared interpreter, imports the module by
name, resolves the three entry points, and reports a fatal configuration
error if the module is missing or does not define the mandatory
`performAction` hook (PythonAction.cpp is absent). -/
def initAction (env : List (String × PyHooks)) (g : PyRuntime)
    (a : PythonAction) : PyRuntime × PythonAction × Option PyError :=
  let g1 := acquirePy g
  match envLookup env a._moduleName with
  | none =>
    (g1, { a with _isInitialized := true },
      some (PyError.moduleNotFound a._moduleName))
  | some m =>
    if m.hasPerformAction then
      (g1, { a with _isInitialized := true, _module := some m }, none)
    else
      (g1, { a with _isInitialized := true, _module := some m },
        some (PyError.missingHook a._moduleName "performAction"))

/-- Result of one `performAction` call: the interpreter state after the call,
the action's own state, the trace of hook invocations (by hook name, one entry
per call made into the module), and the fatal error, if any, that the call
surfaces to the coupling loop (never retried there — a fatal error aborts the
run). -/
structure ActionResult where
  runtime : PyRuntime
  action : PythonAction
  calls : List String
  err : Option PyError
deriving DecidableEq

/-- Modelled from the spec: the hook-invocation phase of `performAction` — the
mandatory per-timestep hook runs first, then, if present, the per-vertex hook
once per vertex of the mesh, then, if present, the post-step hook once; absent
optional hooks are skipped without error (PythonAction.cpp is absent). -/
def runHooks (g : PyRuntime) (a : PythonAction) : ActionResult :=
  match a._module with
  | none => ⟨g, a, [], some (PyError.missingHook a._moduleName "performAction")⟩
  | some m =>
    if m.hasPerformAction then
      let vcalls :=
        if m.hasVertexCallback then
          a._mesh.vertices.map (fun _ => "vertexCallback")
        else []
      let pcalls := if m.hasPostAction then ["postAction"] else []
      ⟨g, a, "performAction" :: (vcalls ++ pcalls), none⟩
    else ⟨g, a, [], some (PyError.missingHook a._moduleName "performAction")⟩

/-- Modelled from the spec: `PythonAction::performAction` — deferred
initialization on the first call, then hook invocation; a configuration error
found during initialization is surfaced and no hook runs.  The four double
arguments are passed through to the hook and not interpreted here. -/
def PythonAction.performAction (env : List (String × PyHooks))
    (g : PyRuntime) (a : PythonAction)
    (time dt computedPartFullDt fullDt : Int) : ActionResult :=
  if a._isInitialized then runHooks g a
  else
    match initAction env g a with
    | (g1, a1, some e) => ⟨g1, a1, [], some e⟩
    | (g1, a1, none) => runHooks g1 a1

/-- Modelled from the spec: `PythonAction::~PythonAction` — releases the
shared interpreter reference only when this instance actually initialized
(acquired) it; destroying a never-initialized instance touches no interpreter
state (PythonAction.cpp is absent). -/
def PythonAction.destroy (g : PyRuntime) (a : PythonAction) :
    Option PyRuntime :=
  if a._isInitialized then releasePy g else some g

/-- Registered action as the coupling loop sees it: a registration identity
and the declared Timing. -/
structure RegisteredAction where
  id : Nat
  timing : Timing
deriving DecidableEq

/-- Modelled from the spec: one Timing occurrence of the (external) coupling
loop — it walks the registered actions in registration order and invokes
`performAction` on exactly those whose Timing matches the occurrence; the
result is the invocation trace, by registration identity, in call order. -/
def couplingStep (t : Timing) : List RegisteredAction → List Nat
  | [] => []
  | a :: rest =>
    if a.timing = t then a.id :: couplingStep t rest else couplingStep t rest

/-- Number of occurrences of a registration identity in an invocation
trace. -/
def countOccur (x : Nat) : List Nat → Nat
  | [] => 0
  | y :: rest => (if y = x then 1 else 0) + countOccur x rest

/-- Lemma: a successful heap lookup address lies inside the heap. -/
theorem heapGet_lt_length {α : Type} (h : IterHeap α) :
    ∀ (p : Nat) (impl : IterImpl α), heapGet h p = some impl → p < h.length := by
  induction h with
  | nil => intro p impl hg; simp [heapGet] at hg
  | cons c rest ih =>
    intro p impl hg
    cases p with
    | zero => simp
    | succ q =>
      simp only [heapGet] at hg
      have hq := ih q impl hg
      simpa using Nat.succ_lt_succ hq

/-- Lemma: allocating a fresh cell does not disturb lookups at existing
addresses. -/
theorem heapGet_append_lt {α : Type} (x : IterImpl α) (h : IterHeap α) :
    ∀ p : Nat, p < h.length → heapGet (h ++ [x]) p = heapGet h p := by
  induction h with
  | nil => intro p hp; simp at hp
  | cons c rest ih =>
    intro p hp
    cases p with
    | zero => simp [heapGet]
    | succ q =>
      simp only [List.cons_append, heapGet]
      exact ih q (by simp at hp; omega)

/-- Lemma: a freshly allocated cell is found at the old heap length. -/
theorem heapGet_append_len {α : Type} (x : IterImpl α) (h : IterHeap α) :
    heapGet (h ++ [x]) h.length = some x := by
  induction h with
  | nil => simp [heapGet]
  | cons c rest ih => simpa [heapGet] using ih

/-- Lemma: updating the freshly allocated cell rewrites only that cell. -/
theorem heapSet_append_len {α : Type} (x y : IterImpl α) (h : IterHeap α) :
    heapSet (h ++ [x]) h.length y = h ++ [y] := by
  induction h with
  | nil => simp [heapSet]
  | cons c rest ih => simpa [heapSet] using ih

/-- Lemma: updating one cell does not disturb lookups at other addresses. -/
theorem heapGet_heapSet_ne {α : Type} (y : IterImpl α) :
    ∀ (h : IterHeap α) (p q : Nat), p ≠ q →
      heapGet (heapSet h p y) q = heapGet h q := by
  intro h
  induction h with
  | nil => intro p q _; simp [heapSet]
  | cons c rest ih =>
    intro p q hpq
    cases p with
    | zero =>
      cases q with
      | zero => exact absurd rfl hpq
      | succ q2 => simp [heapSet, heapGet]
    | succ p2 =>
      cases q with
      | zero => simp [heapSet, heapGet]
      | succ q2 =>
        simp only [heapSet, heapGet]
        exact ih p2 q2 (by omega)

/-- Lemma: a fresh allocation is invisible to any iterator whose pointer is
null or already allocated. -/
theorem getImpl_frame_append {α : Type} (h : IterHeap α) (x : IterImpl α)
    (j : Iter α) (hj : ∀ q, j.ptr = some q → q < h.length) :
    getImpl (h ++ [x]) j = getImpl h j := by
  cases hjp : j.ptr with
  | none => simp [getImpl, hjp]
  | some q => simp [getImpl, hjp, heapGet_append_lt x h q (hj q hjp)]

/-- Lemma: copying an iterator and incrementing the copy rewrites the heap
into the original heap plus one advanced fresh cell. -/
theorem copyInc_eq {α : Type} (h : IterHeap α) (it : Iter α)
    (impl : IterImpl α) (hget : getImpl h it = some impl) :
    incIter (copyIter h it).1 (copyIter h it).2
      = h ++ [⟨impl.content, impl.index + 1⟩] := by
  simp only [copyIter, hget, allocImpl, incIter]
  rw [heapGet_append_len]
  exact heapSet_append_len impl ⟨impl.content, impl.index + 1⟩ h

/-- Lemma: iterator equality only reads the two implementations, so it is
stable under any heap change that preserves both. -/
theorem iterEq_congr {α : Type} [DecidableEq α] (h1 h2 : IterHeap α)
    (a b : Iter α) (ha : getImpl h2 a = getImpl h1 a)
    (hb : getImpl h2 b = getImpl h1 b) : iterEq h2 a b = iterEq h1 a b := by
  cases hap : a.ptr with
  | none =>
    cases hbp : b.ptr with
    | none => simp [iterEq, hap, hbp]
    | some q => simp [iterEq, hap, hbp]
  | some p =>
    cases hbp : b.ptr with
    | none => simp [iterEq, hap, hbp]
    | some q =>
      simp only [getImpl, hap] at ha
      simp only [getImpl, hbp] at hb
      simp [iterEq, hap, hbp, ha, hb]

/-- Lemma: after copying an iterator and incrementing the copy, the original
iterator and any previously allocated (or singular) iterator dereference
exactly as before. -/
theorem copyInc_frame {α : Type} [DecidableEq α] (h : IterHeap α)
    (it j : Iter α) (impl : IterImpl α) (hget : getImpl h it = some impl)
    (hj : ∀ q, j.ptr = some q → q < h.length) :
    getImpl (incIter (copyIter h it).1 (copyIter h it).2) it = some impl ∧
    getImpl (incIter (copyIter h it).1 (copyIter h it).2) j = getImpl h j := by
  have hp : ∃ p, it.ptr = some p ∧ heapGet h p = some impl := by
    cases hip : it.ptr with
    | none => simp [getImpl, hip] at hget
    | some p => exact ⟨p, rfl, by simpa [getImpl, hip] using hget⟩
  obtain ⟨p, hip, hgp⟩ := hp
  have hplt : p < h.length := heapGet_lt_length h p impl hgp
  rw [copyInc_eq h it impl hget]
  constructor
  · have hit : ∀ q, it.ptr = some q → q < h.length := by
      intro q hq
      rw [hip] at hq
      have hq2 : p = q := Option.some.inj hq
      omega
    rw [getImpl_frame_append h _ it hit]
    exact hget
  · exact getImpl_frame_append h _ j hj

/-- Lemma: walking a cursor at position `i` forward over a shared sequence of
length `i + k` reaches the end cursor in exactly `k` increments. -/
theorem iterCountSteps_two_cell {α : Type} [DecidableEq α] (l : List α) :
    ∀ k i : Nat, i + k = l.length →
      iterCountSteps k [⟨l, i⟩, ⟨l, l.length⟩] ⟨some 0⟩ ⟨some 1⟩ = some k := by
  intro k
  induction k with
  | zero =>
    intro i hi
    have hil : i = l.length := by omega
    subst hil
    simp [iterCountSteps, iterEq, heapGet]
  | succ k ih =>
    intro i hi
    have hne : ¬ i = l.length := by omega
    have hiter :
        iterEq [⟨l, i⟩, ⟨l, l.length⟩] (⟨some 0⟩ : Iter α) ⟨some 1⟩
          = false := by
      simp [iterEq, heapGet, hne]
    simp only [iterCountSteps, hiter, Bool.false_eq_true, if_false]
    rw [show incIter [⟨l, i⟩, ⟨l, l.length⟩] (⟨some 0⟩ : Iter α)
          = [⟨l, i + 1⟩, ⟨l, l.length⟩] from rfl]
    rw [ih (i + 1) (by omega)]
    rfl

/-- Lemma: the coupling loop's invocation trace is the registration-ordered
sublist of matching actions. -/
theorem couplingStep_eq_filter (t : Timing) :
    ∀ l : List RegisteredAction,
      couplingStep t l
        = (l.filter (fun b => decide (b.timing = t))).map
            RegisteredAction.id := by
  intro l
  induction l with
  | nil => rfl
  | cons b rest ih =>
    by_cases hb : b.timing = t
    · simp [couplingStep, hb, List.filter_cons, ih]
    · simp [couplingStep, hb, List.filter_cons, ih]

/-- Lemma: an identity absent from the registration list never appears in the
invocation trace. -/
theorem countOccur_couplingStep_zero (t : Timing) :
    ∀ (l : List RegisteredAction) (x : Nat),
      x ∉ l.map RegisteredAction.id →
      countOccur x (couplingStep t l) = 0 := by
  intro l
  induction l with
  | nil => intro x _; simp [couplingStep, countOccur]
  | cons b rest ih =>
    intro x hx
    simp only [List.map_cons, List.mem_cons, not_or] at hx
    by_cases hb : b.timing = t
    · have hne : ¬ b.id = x := fun he => hx.1 he.symm
      simp [couplingStep, hb, countOccur, hne]
      exact ih x hx.2
    · simp only [couplingStep, if_neg hb]
      exact ih x hx.2

/-- Lemma: with distinct registration identities, each registered action's
identity occurs in the trace once when its Timing matches and never
otherwise. -/
theorem countOccur_couplingStep (t : Timing) :
    ∀ (l : List RegisteredAction) (a : RegisteredAction),
      (l.map RegisteredAction.id).Nodup → a ∈ l →
      countOccur a.id (couplingStep t l) = if a.timing = t then 1 else 0 := by
  intro l
  induction l with
  | nil => intro a _ hmem; simp at hmem
  | cons b rest ih =>
    intro a hnd hmem
    rw [List.map_cons, List.nodup_cons] at hnd
    obtain ⟨hbnot, hndr⟩ := hnd
    rcases List.mem_cons.mp hmem with hab | har
    · subst hab
      by_cases hb : a.timing = t
      · simp only [couplingStep, if_pos hb, countOccur, if_pos rfl, hb,
          if_true]
        have hz := countOccur_couplingStep_zero t rest a.id hbnot
        omega
      · simp only [couplingStep, if_neg hb, hb, if_false]
        exact countOccur_couplingStep_zero t rest a.id hbnot
    · have hne : ¬ b.id = a.id := by
        intro he
        apply hbnot
        rw [he]
        exact List.mem_map_of_mem RegisteredAction.id har
      by_cases hb : b.timing = t
      · simp only [couplingStep, if_pos hb, countOccur, if_neg hne]
        have := ih a hndr har
        omega
      · simp only [couplingStep, if_neg hb]
        exact ih a hndr har

/-- Lemma: a dereferenceable iterator has an allocated pointer. -/
theorem getImpl_some_ptr {α : Type} (h : IterHeap α) (it : Iter α)
    (impl : IterImpl α) (hget : getImpl h it = some impl) :
    ∃ p, it.ptr = some p ∧ heapGet h p = some impl ∧ p < h.length := by
  cases hip : it.ptr with
  | none => simp [getImpl, hip] at hget
  | some p =>
    have hgp : heapGet h p = some impl := by simpa [getImpl, hip] using hget
    exact ⟨p, rfl, hgp, heapGet_lt_length h p impl hgp⟩

/-- Lemma: dereferencing a valid iterator allocates one fresh deep-copied
cell. -/
theorem derefIter_eq {α : Type} (h : IterHeap α) (it : Iter α)
    (impl : IterImpl α) (hget : getImpl h it = some impl) :
    derefIter h it = (h ++ [impl], ⟨some h.length⟩) := by
  simp [derefIter, copyIter, hget, allocImpl]

/-- Lemma: the dereference result is a distinct value object holding a copy of
the implementation the cursor pointed at. -/
theorem deref_fresh {α : Type} (h : IterHeap α) (it : Iter α)
    (impl : IterImpl α) (hget : getImpl h it = some impl) :
    (derefIter h it).2.ptr = some h.length ∧
    it.ptr ≠ (derefIter h it).2.ptr ∧
    getImpl (derefIter h it).1 (derefIter h it).2 = some impl := by
  obtain ⟨p, hip, hgp, hplt⟩ := getImpl_some_ptr h it impl hget
  rw [derefIter_eq h it impl hget]
  refine ⟨rfl, ?_, ?_⟩
  · rw [hip]
    intro hcon
    have hpe := Option.some.inj hcon
    omega
  · simp only [getImpl]
    exact heapGet_append_len impl h

/-- Lemma: advancing the original cursor after dereferencing does not change
what the dereferenced snapshot holds. -/
theorem snapshot_survives_inc {α : Type} (h : IterHeap α) (it : Iter α)
    (impl : IterImpl α) (hget : getImpl h it = some impl) :
    getImpl (incIter (derefIter h it).1 it) (derefIter h it).2 = some impl := by
  obtain ⟨p, hip, hgp, hplt⟩ := getImpl_some_ptr h it impl hget
  rw [derefIter_eq h it impl hget]
  simp only [incIter, hip]
  rw [heapGet_append_lt impl h p hplt, hgp]
  simp only [getImpl]
  rw [heapGet_heapSet_ne _ _ p h.length (by omega)]
  exact heapGet_append_len impl h

/-- C1: for every Group, `VertexHandle::size()` (and likewise
`EdgeHandle::size()` and `TriangleHandle::size()`) equals the number of steps
obtained by starting at `begin()`, incrementing until equal to `end()`, and
counting the increments. -/
theorem handle_size_counts_begin_to_end (g : Group) :
    VertexHandle.countSteps ⟨g⟩ = some (VertexHandle.size ⟨g⟩) ∧
    EdgeHandle.countSteps ⟨g⟩ = some (EdgeHandle.size ⟨g⟩) ∧
    TriangleHandle.countSteps ⟨g⟩ = some (TriangleHandle.size ⟨g⟩) := by
  refine ⟨?_, ?_, ?_⟩
  · exact iterCountSteps_two_cell g.vertices g.vertices.length 0
      (Nat.zero_add _)
  · exact iterCountSteps_two_cell g.edges g.edges.length 0 (Nat.zero_add _)
  · exact iterCountSteps_two_cell g.triangles g.triangles.length 0
      (Nat.zero_add _)

/-- C6: for each element kind, two default-constructed (singular) iterators
compare equal to each other, and a default-constructed iterator compares
unequal to every iterator constructed from a Group — begin or end iterators
directly, and intermediate positions too, since incrementing changes only the
heap while the iterator value (and its non-null pointer) stays fixed; the
inequality below holds in every heap `h1`, hence at every later position. -/
theorem default_iterator_equality :
    (∀ h : IterHeap Vertex, iterEq h mkIterDefault mkIterDefault = true) ∧
    (∀ h : IterHeap Edge, iterEq h mkIterDefault mkIterDefault = true) ∧
    (∀ h : IterHeap Triangle, iterEq h mkIterDefault mkIterDefault = true) ∧
    (∀ (g : Group) (h0 h1 : IterHeap Vertex) (b : Bool),
      iterEq h1 mkIterDefault ((mkIter h0 g.vertices b).2) = false ∧
      iterEq h1 ((mkIter h0 g.vertices b).2) mkIterDefault = false) ∧
    (∀ (g : Group) (h0 h1 : IterHeap Edge) (b : Bool),
      iterEq h1 mkIterDefault ((mkIter h0 g.edges b).2) = false ∧
      iterEq h1 ((mkIter h0 g.edges b).2) mkIterDefault = false) ∧
    (∀ (g : Group) (h0 h1 : IterHeap Triangle) (b : Bool),
      iterEq h1 mkIterDefault ((mkIter h0 g.triangles b).2) = false ∧
      iterEq h1 ((mkIter h0 g.triangles b).2) mkIterDefault = false) := by
  refine ⟨fun h => rfl, fun h => rfl, fun h => rfl, ?_, ?_, ?_⟩ <;>
    exact fun g h0 h1 b => ⟨rfl, rfl⟩

/-- C9: destroying a PythonAction on which `performAction` was never called is
safe — the destructor completes without a resource-lifecycle error and leaves
the interpreter state untouched, because it only releases the shared
interpreter reference when `_isInitialized` is set. -/
theorem destructor_safe_uninitialized (t : Timing) (path name : String)
    (mesh : Group) (tid sid : Int) (g : PyRuntime) :
    PythonAction.destroy g (mkPythonAction t path name mesh tid sid)
      = some g := rfl

/-- C10: a MeshHandle constructed from a Group holds exactly three
sub-handles, all referencing that same Group, and `vertices()`, `edges()` and
`triangles()` return exactly the stored members; construction and the
accessors are pure, so the Group is never mutated. -/
theorem meshHandle_three_subhandles (g : Group) :
    MeshHandle.ofGroup g = ⟨⟨g⟩, ⟨g⟩, ⟨g⟩⟩ ∧
    (MeshHandle.ofGroup g).vertices = (MeshHandle.ofGroup g)._vertexHandle ∧
    (MeshHandle.ofGroup g).edges = (MeshHandle.ofGroup g)._edgeHandle ∧
    (MeshHandle.ofGroup g).triangles
      = (MeshHandle.ofGroup g)._triangleHandle ∧
    ((MeshHandle.ofGroup g).vertices)._content = g ∧
    ((MeshHandle.ofGroup g).edges)._content = g ∧
    ((MeshHandle.ofGroup g).triangles)._content = g :=
  ⟨rfl, rfl, rfl, rfl, rfl, rfl, rfl⟩

/-- C5: for every iterator kind at any valid position, copy-constructing a
second iterator and incrementing the copy leaves the original's position
(its implementation cell), its dereferenced ids and coordinates, and its
equality behaviour against any singular or previously allocated iterator
unchanged — the copy is a deep, independent cursor. -/
theorem iterator_copy_independence
    (hV : IterHeap Vertex) (itV jV : Iter Vertex) (implV : IterImpl Vertex)
    (hE : IterHeap Edge) (itE jE : Iter Edge) (implE : IterImpl Edge)
    (hT : IterHeap Triangle) (itT jT : Iter Triangle)
    (implT : IterImpl Triangle)
    (hgetV : getImpl hV itV = some implV)
    (hjV : ∀ q, jV.ptr = some q → q < hV.length)
    (hgetE : getImpl hE itE = some implE)
    (hjE : ∀ q, jE.ptr = some q → q < hE.length)
    (hgetT : getImpl hT itT = some implT)
    (hjT : ∀ q, jT.ptr = some q → q < hT.length) :
    (getImpl (incIter (copyIter hV itV).1 (copyIter hV itV).2) itV
        = some implV ∧
      VertexIterator.vertexID
          (incIter (copyIter hV itV).1 (copyIter hV itV).2) itV
        = VertexIterator.vertexID hV itV ∧
      VertexIterator.vertexCoords
          (incIter (copyIter hV itV).1 (copyIter hV itV).2) itV
        = VertexIterator.vertexCoords hV itV ∧
      iterEq (incIter (copyIter hV itV).1 (copyIter hV itV).2) itV jV
        = iterEq hV itV jV ∧
      iterEq (incIter (copyIter hV itV).1 (copyIter hV itV).2) jV itV
        = iterEq hV jV itV) ∧
    (getImpl (incIter (copyIter hE itE).1 (copyIter hE itE).2) itE
        = some implE ∧
      EdgeIterator.vertexID
          (incIter (copyIter hE itE).1 (copyIter hE itE).2) itE 0
        = EdgeIterator.vertexID hE itE 0 ∧
      EdgeIterator.vertexID
          (incIter (copyIter hE itE).1 (copyIter hE itE).2) itE 1
        = EdgeIterator.vertexID hE itE 1 ∧
      iterEq (incIter (copyIter hE itE).1 (copyIter hE itE).2) itE jE
        = iterEq hE itE jE ∧
      iterEq (incIter (copyIter hE itE).1 (copyIter hE itE).2) jE itE
        = iterEq hE jE itE) ∧
    (getImpl (incIter (copyIter hT itT).1 (copyIter hT itT).2) itT
        = some implT ∧
      TriangleIterator.vertexID
          (incIter (copyIter hT itT).1 (copyIter hT itT).2) itT 0
        = TriangleIterator.vertexID hT itT 0 ∧
      TriangleIterator.vertexID
          (incIter (copyIter hT itT).1 (copyIter hT itT).2) itT 1
        = TriangleIterator.vertexID hT itT 1 ∧
      TriangleIterator.vertexID
          (incIter (copyIter hT itT).1 (copyIter hT itT).2) itT 2
        = TriangleIterator.vertexID hT itT 2 ∧
      iterEq (incIter (copyIter hT itT).1 (copyIter hT itT).2) itT jT
        = iterEq hT itT jT ∧
      iterEq (incIter (copyIter hT itT).1 (copyIter hT itT).2) jT itT
        = iterEq hT jT itT) := by
  obtain ⟨hfV, hfjV⟩ := copyInc_frame hV itV jV implV hgetV hjV
  obtain ⟨hfE, hfjE⟩ := copyInc_frame hE itE jE implE hgetE hjE
  obtain ⟨hfT, hfjT⟩ := copyInc_frame hT itT jT implT hgetT hjT
  refine ⟨⟨hfV, ?_, ?_, ?_, ?_⟩, ⟨hfE, ?_, ?_, ?_, ?_⟩,
    ⟨hfT, ?_, ?_, ?_, ?_, ?_⟩⟩
  · simp only [VertexIterator.vertexID, hfV, hgetV]
  · simp only [VertexIterator.vertexCoords, hfV, hgetV]
  · exact iterEq_congr hV _ itV jV (hfV.trans hgetV.symm) hfjV
  · exact iterEq_congr hV _ jV itV hfjV (hfV.trans hgetV.symm)
  · simp only [EdgeIterator.vertexID, hfE, hgetE]
  · simp only [EdgeIterator.vertexID, hfE, hgetE]
  · exact iterEq_congr hE _ itE jE (hfE.trans hgetE.symm) hfjE
  · exact iterEq_congr hE _ jE itE hfjE (hfE.trans hgetE.symm)
  · simp only [TriangleIterator.vertexID, hfT, hgetT]
  · simp only [TriangleIterator.vertexID, hfT, hgetT]
  · simp only [TriangleIterator.vertexID, hfT, hgetT]
  · exact iterEq_congr hT _ itT jT (hfT.trans hgetT.symm) hfjT
  · exact iterEq_congr hT _ jT itT hfjT (hfT.trans hgetT.symm)

/-- Witness for C5: a one-vertex, one-edge, one-triangle Group, with the
original iterator and the comparison iterator both at the begin position. -/
theorem iterator_copy_independence_witness :
    getImpl [(⟨[⟨0, [0, 0]⟩], 0⟩ : IterImpl Vertex)] ⟨some 0⟩
        = some ⟨[⟨0, [0, 0]⟩], 0⟩ ∧
    getImpl [(⟨[⟨⟨0, [0, 0]⟩, ⟨1, [1, 0]⟩⟩], 0⟩ : IterImpl Edge)] ⟨some 0⟩
        = some ⟨[⟨⟨0, [0, 0]⟩, ⟨1, [1, 0]⟩⟩], 0⟩ ∧
    getImpl
        [(⟨[⟨⟨0, [0, 0]⟩, ⟨1, [1, 0]⟩, ⟨2, [1, 1]⟩⟩], 0⟩ :
          IterImpl Triangle)] ⟨some 0⟩
        = some ⟨[⟨⟨0, [0, 0]⟩, ⟨1, [1, 0]⟩, ⟨2, [1, 1]⟩⟩], 0⟩ ∧
    getImpl
        (incIter
          (copyIter [(⟨[⟨0, [0, 0]⟩], 0⟩ : IterImpl Vertex)] ⟨some 0⟩).1
          (copyIter [(⟨[⟨0, [0, 0]⟩], 0⟩ : IterImpl Vertex)] ⟨some 0⟩).2)
        ⟨some 0⟩
      = some ⟨[⟨0, [0, 0]⟩], 0⟩ ∧
    getImpl
        (incIter
          (copyIter [(⟨[⟨⟨0, [0, 0]⟩, ⟨1, [1, 0]⟩⟩], 0⟩ : IterImpl Edge)]
            ⟨some 0⟩).1
          (copyIter [(⟨[⟨⟨0, [0, 0]⟩, ⟨1, [1, 0]⟩⟩], 0⟩ : IterImpl Edge)]
            ⟨some 0⟩).2)
        ⟨some 0⟩
      = some ⟨[⟨⟨0, [0, 0]⟩, ⟨1, [1, 0]⟩⟩], 0⟩ ∧
    getImpl
        (incIter
          (copyIter
            [(⟨[⟨⟨0, [0, 0]⟩, ⟨1, [1, 0]⟩, ⟨2, [1, 1]⟩⟩], 0⟩ :
              IterImpl Triangle)] ⟨some 0⟩).1
          (copyIter
            [(⟨[⟨⟨0, [0, 0]⟩, ⟨1, [1, 0]⟩, ⟨2, [1, 1]⟩⟩], 0⟩ :
              IterImpl Triangle)] ⟨some 0⟩).2)
        ⟨some 0⟩
      = some ⟨[⟨⟨0, [0, 0]⟩, ⟨1, [1, 0]⟩, ⟨2, [1, 1]⟩⟩], 0⟩ := by
  have hj1 : ∀ q, (⟨some 0⟩ : Iter Vertex).ptr = some q →
      q < ([(⟨[⟨0, [0, 0]⟩], 0⟩ : IterImpl Vertex)] : IterHeap Vertex).length := by
    intro q hq
    have hq2 : (0 : Nat) = q := Option.some.inj hq
    show q < 1
    omega
  have hj2 : ∀ q, (⟨some 0⟩ : Iter Edge).ptr = some q →
      q < ([(⟨[⟨⟨0, [0, 0]⟩, ⟨1, [1, 0]⟩⟩], 0⟩ : IterImpl Edge)] :
        IterHeap Edge).length := by
    intro q hq
    have hq2 : (0 : Nat) = q := Option.some.inj hq
    show q < 1
    omega
  have hj3 : ∀ q, (⟨some 0⟩ : Iter Triangle).ptr = some q →
      q < ([(⟨[⟨⟨0, [0, 0]⟩, ⟨1, [1, 0]⟩, ⟨2, [1, 1]⟩⟩], 0⟩ :
        IterImpl Triangle)] : IterHeap Triangle).length := by
    intro q hq
    have hq2 : (0 : Nat) = q := Option.some.inj hq
    show q < 1
    omega
  have main := iterator_copy_independence
    [(⟨[⟨0, [0, 0]⟩], 0⟩ : IterImpl Vertex)] ⟨some 0⟩ ⟨some 0⟩
    ⟨[⟨0, [0, 0]⟩], 0⟩
    [(⟨[⟨⟨0, [0, 0]⟩, ⟨1, [1, 0]⟩⟩], 0⟩ : IterImpl Edge)] ⟨some 0⟩ ⟨some 0⟩
    ⟨[⟨⟨0, [0, 0]⟩, ⟨1, [1, 0]⟩⟩], 0⟩
    [(⟨[⟨⟨0, [0, 0]⟩, ⟨1, [1, 0]⟩, ⟨2, [1, 1]⟩⟩], 0⟩ : IterImpl Triangle)]
    ⟨some 0⟩ ⟨some 0⟩ ⟨[⟨⟨0, [0, 0]⟩, ⟨1, [1, 0]⟩, ⟨2, [1, 1]⟩⟩], 0⟩
    rfl hj1 rfl hj2 rfl hj3
  exact ⟨rfl, rfl, rfl, main.1.1, main.2.1.1, main.2.2.1⟩

/-- C7: `operator*` returns a value-type snapshot — a fresh object distinct
from the iterator it came from, holding a copy of the current position — that
exposes `vertexID()` and the `vertexCoords()` coordinates for a vertex, and
per-corner `vertexID(i)` / `vertexCoords(i)` accessors for `i` in `0..1` for
an edge and `0..2` for a triangle (out-of-range corners yield nothing); the
snapshot's reads are unaffected by advancing the original cursor. -/
theorem deref_value_snapshot
    (hV : IterHeap Vertex) (itV : Iter Vertex) (implV : IterImpl Vertex)
    (v : Vertex)
    (hE : IterHeap Edge) (itE : Iter Edge) (implE : IterImpl Edge) (e : Edge)
    (hT : IterHeap Triangle) (itT : Iter Triangle)
    (implT : IterImpl Triangle) (tr : Triangle)
    (hgetV : getImpl hV itV = some implV)
    (hvV : elemAt implV.content implV.index = some v)
    (hgetE : getImpl hE itE = some implE)
    (hvE : elemAt implE.content implE.index = some e)
    (hgetT : getImpl hT itT = some implT)
    (hvT : elemAt implT.content implT.index = some tr) :
    ((derefIter hV itV).2.ptr = some hV.length ∧
      itV.ptr ≠ (derefIter hV itV).2.ptr ∧
      VertexIterator.vertexID (derefIter hV itV).1 (derefIter hV itV).2
        = some v.id ∧
      VertexIterator.vertexCoords (derefIter hV itV).1 (derefIter hV itV).2
        = some v.coords ∧
      VertexIterator.vertexID (incIter (derefIter hV itV).1 itV)
          (derefIter hV itV).2
        = some v.id) ∧
    ((derefIter hE itE).2.ptr = some hE.length ∧
      itE.ptr ≠ (derefIter hE itE).2.ptr ∧
      EdgeIterator.vertexID (derefIter hE itE).1 (derefIter hE itE).2 0
        = some e.v0.id ∧
      EdgeIterator.vertexID (derefIter hE itE).1 (derefIter hE itE).2 1
        = some e.v1.id ∧
      EdgeIterator.vertexCoords (derefIter hE itE).1 (derefIter hE itE).2 0
        = some e.v0.coords ∧
      EdgeIterator.vertexCoords (derefIter hE itE).1 (derefIter hE itE).2 1
        = some e.v1.coords ∧
      EdgeIterator.vertexID (derefIter hE itE).1 (derefIter hE itE).2 2
        = none) ∧
    ((derefIter hT itT).2.ptr = some hT.length ∧
      itT.ptr ≠ (derefIter hT itT).2.ptr ∧
      TriangleIterator.vertexID (derefIter hT itT).1 (derefIter hT itT).2 0
        = some tr.v0.id ∧
      TriangleIterator.vertexID (derefIter hT itT).1 (derefIter hT itT).2 1
        = some tr.v1.id ∧
      TriangleIterator.vertexID (derefIter hT itT).1 (derefIter hT itT).2 2
        = some tr.v2.id ∧
      TriangleIterator.vertexCoords (derefIter hT itT).1 (derefIter hT itT).2 0
        = some tr.v0.coords ∧
      TriangleIterator.vertexCoords (derefIter hT itT).1 (derefIter hT itT).2 1
        = some tr.v1.coords ∧
      TriangleIterator.vertexCoords (derefIter hT itT).1 (derefIter hT itT).2 2
        = some tr.v2.coords ∧
      TriangleIterator.vertexID (derefIter hT itT).1 (derefIter hT itT).2 3
        = none) := by
  obtain ⟨hfV1, hfV2, hfV3⟩ := deref_fresh hV itV implV hgetV
  obtain ⟨hfE1, hfE2, hfE3⟩ := deref_fresh hE itE implE hgetE
  obtain ⟨hfT1, hfT2, hfT3⟩ := deref_fresh hT itT implT hgetT
  have hsV := snapshot_survives_inc hV itV implV hgetV
  refine ⟨⟨hfV1, hfV2, ?_, ?_, ?_⟩, ⟨hfE1, hfE2, ?_, ?_, ?_, ?_, ?_⟩,
    ⟨hfT1, hfT2, ?_, ?_, ?_, ?_, ?_, ?_, ?_⟩⟩
  · simp [VertexIterator.vertexID, hfV3, hvV]
  · simp [VertexIterator.vertexCoords, hfV3, hvV]
  · simp [VertexIterator.vertexID, hsV, hvV]
  · simp [EdgeIterator.vertexID, hfE3, hvE]
  · simp [EdgeIterator.vertexID, hfE3, hvE]
  · simp [EdgeIterator.vertexCoords, hfE3, hvE]
  · simp [EdgeIterator.vertexCoords, hfE3, hvE]
  · simp [EdgeIterator.vertexID, hfE3, hvE]
  · simp [TriangleIterator.vertexID, hfT3, hvT]
  · simp [TriangleIterator.vertexID, hfT3, hvT]
  · simp [TriangleIterator.vertexID, hfT3, hvT]
  · simp [TriangleIterator.vertexCoords, hfT3, hvT]
  · simp [TriangleIterator.vertexCoords, hfT3, hvT]
  · simp [TriangleIterator.vertexCoords, hfT3, hvT]
  · simp [TriangleIterator.vertexID, hfT3, hvT]

/-- Witness for C7: the spec's sample scenario — vertices at the unit square's
corners, the edge with endpoints 0 and 1, the triangle with corners 0, 1, 2 —
each iterated from its begin position. -/
theorem deref_value_snapshot_witness :
    getImpl
        [(⟨[⟨0, [0, 0]⟩, ⟨1, [1, 0]⟩, ⟨2, [1, 1]⟩, ⟨3, [0, 1]⟩], 0⟩ :
          IterImpl Vertex)] ⟨some 0⟩
        = some ⟨[⟨0, [0, 0]⟩, ⟨1, [1, 0]⟩, ⟨2, [1, 1]⟩, ⟨3, [0, 1]⟩], 0⟩ ∧
    VertexIterator.vertexID
        (derefIter
          [(⟨[⟨0, [0, 0]⟩, ⟨1, [1, 0]⟩, ⟨2, [1, 1]⟩, ⟨3, [0, 1]⟩], 0⟩ :
            IterImpl Vertex)] ⟨some 0⟩).1
        (derefIter
          [(⟨[⟨0, [0, 0]⟩, ⟨1, [1, 0]⟩, ⟨2, [1, 1]⟩, ⟨3, [0, 1]⟩], 0⟩ :
            IterImpl Vertex)] ⟨some 0⟩).2
      = some 0 ∧
    EdgeIterator.vertexID
        (derefIter [(⟨[⟨⟨0, [0, 0]⟩, ⟨1, [1, 0]⟩⟩], 0⟩ : IterImpl Edge)]
          ⟨some 0⟩).1
        (derefIter [(⟨[⟨⟨0, [0, 0]⟩, ⟨1, [1, 0]⟩⟩], 0⟩ : IterImpl Edge)]
          ⟨some 0⟩).2 1
      = some 1 ∧
    EdgeIterator.vertexCoords
        (derefIter [(⟨[⟨⟨0, [0, 0]⟩, ⟨1, [1, 0]⟩⟩], 0⟩ : IterImpl Edge)]
          ⟨some 0⟩).1
        (derefIter [(⟨[⟨⟨0, [0, 0]⟩, ⟨1, [1, 0]⟩⟩], 0⟩ : IterImpl Edge)]
          ⟨some 0⟩).2 0
      = some [0, 0] ∧
    EdgeIterator.vertexID
        (derefIter [(⟨[⟨⟨0, [0, 0]⟩, ⟨1, [1, 0]⟩⟩], 0⟩ : IterImpl Edge)]
          ⟨some 0⟩).1
        (derefIter [(⟨[⟨⟨0, [0, 0]⟩, ⟨1, [1, 0]⟩⟩], 0⟩ : IterImpl Edge)]
          ⟨some 0⟩).2 2
      = none ∧
    TriangleIterator.vertexID
        (derefIter
          [(⟨[⟨⟨0, [0, 0]⟩, ⟨1, [1, 0]⟩, ⟨2, [1, 1]⟩⟩], 0⟩ :
            IterImpl Triangle)] ⟨some 0⟩).1
        (derefIter
          [(⟨[⟨⟨0, [0, 0]⟩, ⟨1, [1, 0]⟩, ⟨2, [1, 1]⟩⟩], 0⟩ :
            IterImpl Triangle)] ⟨some 0⟩).2 2
      = some 2 := by
  have main := deref_value_snapshot
    [(⟨[⟨0, [0, 0]⟩, ⟨1, [1, 0]⟩, ⟨2, [1, 1]⟩, ⟨3, [0, 1]⟩], 0⟩ :
      IterImpl Vertex)] ⟨some 0⟩
    ⟨[⟨0, [0, 0]⟩, ⟨1, [1, 0]⟩, ⟨2, [1, 1]⟩, ⟨3, [0, 1]⟩], 0⟩ ⟨0, [0, 0]⟩
    [(⟨[⟨⟨0, [0, 0]⟩, ⟨1, [1, 0]⟩⟩], 0⟩ : IterImpl Edge)] ⟨some 0⟩
    ⟨[⟨⟨0, [0, 0]⟩, ⟨1, [1, 0]⟩⟩], 0⟩ ⟨⟨0, [0, 0]⟩, ⟨1, [1, 0]⟩⟩
    [(⟨[⟨⟨0, [0, 0]⟩, ⟨1, [1, 0]⟩, ⟨2, [1, 1]⟩⟩], 0⟩ : IterImpl Triangle)]
    ⟨some 0⟩ ⟨[⟨⟨0, [0, 0]⟩, ⟨1, [1, 0]⟩, ⟨2, [1, 1]⟩⟩], 0⟩
    ⟨⟨0, [0, 0]⟩, ⟨1, [1, 0]⟩, ⟨2, [1, 1]⟩⟩
    rfl rfl rfl rfl rfl rfl
  exact ⟨rfl, main.1.2.2.1, main.2.1.2.2.2.1, main.2.1.2.2.2.2.1,
    main.2.1.2.2.2.2.2.2, main.2.2.2.2.2.2.1⟩

/-- C2: constructing a PythonAction only stores the timing, module path,
module name, mesh and the source/target Data identifiers — it holds no loaded
module and is not initialized — and the Python interpreter is only started,
and the module only imported, by the first `performAction` call on the
instance (shown for a process with no other live instance). -/
theorem pythonAction_construction_defers
    (t : Timing) (path name : String) (mesh : Group) (tid sid : Int)
    (env : List (String × PyHooks)) (g : PyRuntime) (m : PyHooks)
    (time dt cp fd : Int)
    (hm : envLookup env name = some m)
    (hmand : m.hasPerformAction = true)
    (hfresh : g.refCount = 0) :
    (mkPythonAction t path name mesh tid sid).timing = t ∧
    (mkPythonAction t path name mesh tid sid)._modulePath = path ∧
    (mkPythonAction t path name mesh tid sid)._moduleName = name ∧
    (mkPythonAction t path name mesh tid sid)._mesh = mesh ∧
    (mkPythonAction t path name mesh tid sid)._targetData = tid ∧
    (mkPythonAction t path name mesh tid sid)._sourceData = sid ∧
    (mkPythonAction t path name mesh tid sid)._isInitialized = false ∧
    (mkPythonAction t path name mesh tid sid)._module = none ∧
    (PythonAction.performAction env g
        (mkPythonAction t path name mesh tid sid)
        time dt cp fd).action._isInitialized = true ∧
    (PythonAction.performAction env g
        (mkPythonAction t path name mesh tid sid)
        time dt cp fd).action._module = some m ∧
    (PythonAction.performAction env g
        (mkPythonAction t path name mesh tid sid)
        time dt cp fd).runtime = ⟨1, true, g.startCount + 1⟩ := by
  refine ⟨rfl, rfl, rfl, rfl, rfl, rfl, rfl, rfl, ?_, ?_, ?_⟩ <;>
    simp [PythonAction.performAction, mkPythonAction, initAction, hm, hmand,
      acquirePy, hfresh, runHooks]

/-- Witness for C2: one module defining only the mandatory hook, in a process
whose interpreter was never started. -/
theorem pythonAction_construction_defers_witness :
    envLookup [("mod", (⟨true, false, false⟩ : PyHooks))] "mod"
        = some ⟨true, false, false⟩ ∧
    PyHooks.hasPerformAction ⟨true, false, false⟩ = true ∧
    PyRuntime.refCount ⟨0, false, 0⟩ = 0 ∧
    (PythonAction.performAction [("mod", ⟨true, false, false⟩)] ⟨0, false, 0⟩
        (mkPythonAction Timing.startOfTimestep "p" "mod" ⟨[], [], []⟩ 1 2)
        0 0 0 0).runtime = ⟨1, true, 1⟩ := by
  have main := pythonAction_construction_defers Timing.startOfTimestep "p"
    "mod" ⟨[], [], []⟩ 1 2 [("mod", ⟨true, false, false⟩)] ⟨0, false, 0⟩
    ⟨true, false, false⟩ 0 0 0 0 (by decide) rfl rfl
  exact ⟨by decide, rfl, rfl, main.2.2.2.2.2.2.2.2.2.2⟩

/-- C3: the embedded interpreter is managed by a process-wide reference
count — the first instance to need it performs global startup; destroying an
initialized instance while the count still holds another live reference
leaves the interpreter up; destroying the last one performs global teardown;
and an instance constructed after full teardown starts the interpreter again
from scratch (the startup counter advances once more). -/
theorem interpreter_reference_counting
    (t : Timing) (path name : String) (mesh : Group) (tid sid : Int)
    (env : List (String × PyHooks)) (m : PyHooks)
    (g gMid gLast : PyRuntime) (a : PythonAction) (time dt cp fd : Int)
    (hm : envLookup env name = some m)
    (hmand : m.hasPerformAction = true)
    (hfresh : g.refCount = 0)
    (hainit : a._isInitialized = true)
    (hmid : 2 ≤ gMid.refCount) (hmidup : gMid.up = true)
    (hlast : gLast.refCount = 1) :
    (PythonAction.performAction env g
        (mkPythonAction t path name mesh tid sid)
        time dt cp fd).runtime = ⟨1, true, g.startCount + 1⟩ ∧
    PythonAction.destroy gMid a
      = some ⟨gMid.refCount - 1, true, gMid.startCount⟩ ∧
    PythonAction.destroy gLast a = some ⟨0, false, gLast.startCount⟩ ∧
    (PythonAction.performAction env ⟨0, false, gLast.startCount⟩
        (mkPythonAction t path name mesh tid sid) time dt cp fd).runtime
      = ⟨1, true, gLast.startCount + 1⟩ := by
  refine ⟨?_, ?_, ?_, ?_⟩
  · simp [PythonAction.performAction, mkPythonAction, initAction, hm, hmand,
      acquirePy, hfresh, runHooks]
  · obtain ⟨n, hn⟩ : ∃ n, gMid.refCount = n + 2 :=
      ⟨gMid.refCount - 2, by omega⟩
    simp [PythonAction.destroy, hainit, releasePy, hn, hmidup]
  · simp [PythonAction.destroy, hainit, releasePy, hlast]
  · simp [PythonAction.performAction, mkPythonAction, initAction, hm, hmand,
      acquirePy, runHooks]

/-- Witness for C3: two live initialized instances at reference count two;
destroying one leaves the interpreter up at count one, destroying the second
tears it down, and a fresh instance afterwards starts it a second time. -/
theorem interpreter_reference_counting_witness :
    PyRuntime.refCount ⟨0, false, 0⟩ = 0 ∧
    2 ≤ PyRuntime.refCount ⟨2, true, 1⟩ ∧
    PyRuntime.refCount ⟨1, true, 1⟩ = 1 ∧
    (PythonAction.performAction [("mod", ⟨true, false, false⟩)] ⟨0, false, 0⟩
        (mkPythonAction Timing.endOfTimestep "p" "mod" ⟨[], [], []⟩ 1 2)
        0 0 0 0).runtime = ⟨1, true, 1⟩ ∧
    PythonAction.destroy ⟨2, true, 1⟩
        ⟨Timing.endOfTimestep, ⟨[], [], []⟩, "p", "mod", 1, 2, true,
          some ⟨true, false, false⟩⟩ = some ⟨1, true, 1⟩ ∧
    PythonAction.destroy ⟨1, true, 1⟩
        ⟨Timing.endOfTimestep, ⟨[], [], []⟩, "p", "mod", 1, 2, true,
          some ⟨true, false, false⟩⟩ = some ⟨0, false, 1⟩ ∧
    (PythonAction.performAction [("mod", ⟨true, false, false⟩)] ⟨0, false, 1⟩
        (mkPythonAction Timing.endOfTimestep "p" "mod" ⟨[], [], []⟩ 1 2)
        0 0 0 0).runtime = ⟨1, true, 2⟩ := by
  have main := interpreter_reference_counting Timing.endOfTimestep "p" "mod"
    ⟨[], [], []⟩ 1 2 [("mod", ⟨true, false, false⟩)] ⟨true, false, false⟩
    ⟨0, false, 0⟩ ⟨2, true, 1⟩ ⟨1, true, 1⟩
    ⟨Timing.endOfTimestep, ⟨[], [], []⟩, "p", "mod", 1, 2, true,
      some ⟨true, false, false⟩⟩ 0 0 0 0
    (by decide) rfl rfl rfl (by decide) rfl rfl
  exact ⟨rfl, by decide, rfl, main.1, main.2.1, main.2.2.1, main.2.2.2⟩

/-- C4: with a module defining only the mandatory per-timestep hook,
`performAction` succeeds and the absent per-vertex and post-step hooks are
skipped without error (exactly one hook invocation happens); with a module
missing the mandatory hook, the first `performAction` call fails with a fatal
configuration error naming the missing hook before any hook runs, and a later
call still surfaces the same error — it is never retried into a success. -/
theorem mandatory_hook_requirement
    (t : Timing) (path nameGood nameBad : String) (mesh : Group)
    (tid sid : Int) (env : List (String × PyHooks))
    (g1 g2 g3 : PyRuntime) (mOnly mBad : PyHooks) (time dt cp fd : Int)
    (hgood : envLookup env nameGood = some mOnly)
    (hOnly : mOnly = ⟨true, false, false⟩)
    (hbad : envLookup env nameBad = some mBad)
    (hBad : mBad.hasPerformAction = false) :
    (PythonAction.performAction env g1
        (mkPythonAction t path nameGood mesh tid sid) time dt cp fd).err
      = none ∧
    (PythonAction.performAction env g1
        (mkPythonAction t path nameGood mesh tid sid) time dt cp fd).calls
      = ["performAction"] ∧
    (PythonAction.performAction env g2
        (mkPythonAction t path nameBad mesh tid sid) time dt cp fd).err
      = some (PyError.missingHook nameBad "performAction") ∧
    (PythonAction.performAction env g2
        (mkPythonAction t path nameBad mesh tid sid) time dt cp fd).calls
      = [] ∧
    (PythonAction.performAction env g3
        ((PythonAction.performAction env g2
          (mkPythonAction t path nameBad mesh tid sid) time dt cp fd).action)
        time dt cp fd).err
      = some (PyError.missingHook nameBad "performAction") := by
  subst hOnly
  refine ⟨?_, ?_, ?_, ?_, ?_⟩ <;>
    simp [PythonAction.performAction, mkPythonAction, initAction, hgood, hbad,
      hBad, acquirePy, runHooks]

/-- Witness for C4: an environment holding a module with only the mandatory
hook and a module with only the optional hooks. -/
theorem mandatory_hook_requirement_witness :
    envLookup
        [("good", (⟨true, false, false⟩ : PyHooks)),
          ("bad", ⟨false, true, true⟩)] "good" = some ⟨true, false, false⟩ ∧
    envLookup
        [("good", (⟨true, false, false⟩ : PyHooks)),
          ("bad", ⟨false, true, true⟩)] "bad" = some ⟨false, true, true⟩ ∧
    (PythonAction.performAction
        [("good", ⟨true, false, false⟩), ("bad", ⟨false, true, true⟩)]
        ⟨0, false, 0⟩
        (mkPythonAction Timing.startOfTimestep "p" "good" ⟨[], [], []⟩ 1 2)
        0 0 0 0).calls = ["performAction"] ∧
    (PythonAction.performAction
        [("good", ⟨true, false, false⟩), ("bad", ⟨false, true, true⟩)]
        ⟨0, false, 0⟩
        (mkPythonAction Timing.startOfTimestep "p" "bad" ⟨[], [], []⟩ 1 2)
        0 0 0 0).err = some (PyError.missingHook "bad" "performAction") := by
  have main := mandatory_hook_requirement Timing.startOfTimestep "p" "good"
    "bad" ⟨[], [], []⟩ 1 2
    [("good", ⟨true, false, false⟩), ("bad", ⟨false, true, true⟩)]
    ⟨0, false, 0⟩ ⟨0, false, 0⟩ ⟨0, false, 0⟩ ⟨true, false, false⟩
    ⟨false, true, true⟩ 0 0 0 0 (by decide) rfl (by decide) rfl
  exact ⟨by decide, by decide, main.2.1, main.2.2.1⟩

/-- C8: one Timing occurrence of the coupling loop invokes `performAction`
exactly once on every registered Action whose Timing matches — never on the
others — and the invocations happen in registration order: the trace is the
registration-ordered sublist of matching actions, and each action's identity
occurs in it once when its Timing matches and zero times otherwise. -/
theorem same_timing_registration_order
    (t : Timing) (actions : List RegisteredAction) (a : RegisteredAction)
    (hnd : (actions.map RegisteredAction.id).Nodup) (hmem : a ∈ actions) :
    couplingStep t actions
      = (actions.filter (fun b => decide (b.timing = t))).map
          RegisteredAction.id ∧
    countOccur a.id (couplingStep t actions)
      = if a.timing = t then 1 else 0 :=
  ⟨couplingStep_eq_filter t actions,
    countOccur_couplingStep t actions a hnd hmem⟩

/-- Witness for C8: the spec's scenario of three Actions registered with the
same Timing, observed at the middle one. -/
theorem same_timing_registration_order_witness :
    (([⟨0, Timing.endOfTimestep⟩, ⟨1, Timing.endOfTimestep⟩,
        ⟨2, Timing.endOfTimestep⟩] :
      List RegisteredAction).map RegisteredAction.id).Nodup ∧
    (⟨1, Timing.endOfTimestep⟩ : RegisteredAction)
      ∈ ([⟨0, Timing.endOfTimestep⟩, ⟨1, Timing.endOfTimestep⟩,
          ⟨2, Timing.endOfTimestep⟩] : List RegisteredAction) ∧
    couplingStep Timing.endOfTimestep
        [⟨0, Timing.endOfTimestep⟩, ⟨1, Timing.endOfTimestep⟩,
          ⟨2, Timing.endOfTimestep⟩] = [0, 1, 2] ∧
    countOccur 1
        (couplingStep Timing.endOfTimestep
          [⟨0, Timing.endOfTimestep⟩, ⟨1, Timing.endOfTimestep⟩,
            ⟨2, Timing.endOfTimestep⟩]) = 1 := by
  have main := same_timing_registration_order Timing.endOfTimestep
    [⟨0, Timing.endOfTimestep⟩, ⟨1, Timing.endOfTimestep⟩,
      ⟨2, Timing.endOfTimestep⟩] ⟨1, Timing.endOfTimestep⟩
    (by decide) (by decide)
  refine ⟨by decide, by decide, main.1.trans (by decide), main.2⟩

end Precice
